import Mathlib

set_option maxHeartbeats 1000000

/-!
Shallow embedding of the pooltool repository (event factory, shot-evolution
engine, ruleset framework) together with theorems that settle the claims about
its specification.

Conventions used throughout:
* Python floats that measure times or energies are embedded as rationals; the
  value `np.inf` used by the evolution engine is embedded as the top element of
  a linear order with a greatest element (`WithTop ℚ`).
* Python dictionaries iterate in insertion order, so a dict is embedded as the
  list of its entries in that order.
* Fallible Python code (assert failures, index errors, zero-division, raised
  ValueError) is embedded with `Except String`.
* External boundary routines (the physics module, the abstract methods of a
  `Ruleset` subclass) are taken as explicit function parameters, so every
  theorem quantifies over them.
-/

namespace Rules

/-- Embeds `Player` from `pooltool/game/ruleset/datatypes.py`. -/
structure Player where
  name : String
deriving DecidableEq, Repr

/-- Embeds `Player.create_players`: an absent name list defaults to
`["Player 1", "Player 2"]`; the Python assert
`len(names) == len(set(names))` is embedded by comparing with the length of
the deduplicated list (the cardinality of the set of names). -/
def Player.create_players (names : Option (List String)) : Except String (List Player) :=
  let ns := match names with
    | none => ["Player 1", "Player 2"]
    | some ns => ns
  if ns.length = ns.dedup.length then
    Except.ok (ns.map Player.mk)
  else
    Except.error "Player names must be unique"

/-- One entry of `Log.msgs`.  The absolute timestamp and the formatted elapsed
time recorded by the real code come from the external `Timer` boundary and are
not part of the embedded state; the remaining fields are kept. -/
structure LogEntry where
  msg : String
  sentiment : String
  quiet : Bool
  broadcast : Bool
deriving DecidableEq, Repr

/-- Embeds the mutable `Log` object: the ordered message list and the
update-pending flag. -/
structure Log where
  msgs : List LogEntry
  update : Bool
deriving DecidableEq, Repr

/-- Fresh `Log()` state. -/
def Log.init : Log := ⟨[], false⟩

/-- Embeds `Log.add_msg` (its Python defaults are sentiment `"neutral"` and
quiet `false`; call sites here always pass both explicitly).  The broadcast
field is always created `false`; a non-quiet append raises the update flag. -/
def Log.add_msg (log : Log) (msg : String) (sentiment : String) (quiet : Bool) : Log :=
  { msgs := log.msgs ++ [⟨msg, sentiment, quiet, false⟩]
    update := if quiet then log.update else true }

/-- Embeds `BallInHandOptions`. -/
inductive BallInHandOptions
  | NONE
  | ANYWHERE
  | BEHIND_LINE
  | SEMICIRCLE
deriving DecidableEq, Repr

/-- Embeds `ShotConstraints`.  The Python attrs defaults for `ball_call` and
`pocket_call` are `None`. -/
structure ShotConstraints where
  ball_in_hand : BallInHandOptions
  movable : Option (List String)
  cueable : Option (List String)
  hittable : List String
  call_shot : Bool
  ball_call : Option String
  pocket_call : Option String
deriving DecidableEq, Repr

/-- The ball collection of a `System` is a dict keyed by ball id; only its key
list (in insertion order) is relevant to the ruleset framework. -/
abbrev Balls := List String

/-- Embeds `ShotConstraints.cueball`.  When `cueable` is unset the Python code
asserts the ball collection is non-empty, probes the ids `"cue"`, `"white"`,
`"yellow"` in that order, and otherwise falls back to the first key of the
collection; when `cueable` is set it returns `cueable[0]`, which raises an
index error when that list is empty. -/
def ShotConstraints.cueball (sc : ShotConstraints) (balls : Balls) : Except String String :=
  match sc.cueable with
  | none =>
    match balls with
    | [] => Except.error "AssertionError"
    | b :: _ =>
      if balls.contains "cue" then Except.ok "cue"
      else if balls.contains "white" then Except.ok "white"
      else if balls.contains "yellow" then Except.ok "yellow"
      else Except.ok b
  | some cueable =>
    match cueable with
    | [] => Except.error "IndexError: list index out of range"
    | c :: _ => Except.ok c

/-- Embeds `ShotConstraints.can_shoot`. -/
def ShotConstraints.can_shoot (sc : ShotConstraints) : Bool :=
  if sc.call_shot ∧ sc.ball_call ≠ none ∧ sc.pocket_call ≠ none then true
  else if ¬ sc.call_shot then true
  else false

/-- Embeds `ShotInfo`.  The `Counter[str]` score is the list of its
(key, count) entries. -/
structure ShotInfo where
  player : Player
  legal : Bool
  reason : String
  turn_over : Bool
  game_over : Bool
  winner : Option Player
  score : List (String × Int)
deriving DecidableEq, Repr

/-- The part of the external `System` ("shot") the ruleset framework touches:
its ball ids in insertion order and the cue object's `cue_ball_id` field,
which `advance` reassigns. -/
structure Shot where
  balls : Balls
  cue_ball_id : String
deriving DecidableEq, Repr

/-- Embeds the state of one `Ruleset` instance.  `shot_info` is `none` until
`process_shot` has run (the Python attribute is declared but unassigned, so
touching it earlier raises). -/
structure Ruleset where
  score : List (String × Int)
  shot_number : Nat
  turn_number : Nat
  shot_constraints : ShotConstraints
  shot_info : Option ShotInfo
  players : List Player
  active_idx : Nat
  log : Log
deriving DecidableEq, Repr

/-- The abstract methods a concrete `Ruleset` subclass supplies.  They are
modelled per their documented contracts: each reads the ruleset state and the
shot and returns its specified result (`respot_balls` may update the shot). -/
structure Hooks where
  build_shot_info : Ruleset → Shot → ShotInfo
  next_shot_constraints : Ruleset → Shot → ShotConstraints
  initial_shot_constraints : ShotConstraints
  respot_balls : Ruleset → Shot → Shot

/-- Embeds `Ruleset.__init__`: zero counters, initial constraints from the
subclass hook, roster from `Player.create_players`, `active_idx = 0`, fresh
log; fails when the roster names are not unique. -/
def Ruleset.init (hooks : Hooks) (player_names : Option (List String)) :
    Except String Ruleset :=
  match Player.create_players player_names with
  | Except.error e => Except.error e
  | Except.ok players =>
    Except.ok
      { score := []
        shot_number := 0
        turn_number := 0
        shot_constraints := hooks.initial_shot_constraints
        shot_info := none
        players := players
        active_idx := 0
        log := Log.init }

/-- Embeds `Ruleset.set_next_player`: `active_idx = turn_number % len(players)`,
which in Python raises a zero-division error on an empty roster. -/
def Ruleset.set_next_player (r : Ruleset) : Except String Ruleset :=
  if r.players.length = 0 then Except.error "ZeroDivisionError"
  else Except.ok { r with active_idx := r.turn_number % r.players.length }

/-- The tail of `Ruleset.advance` after the counters have been bumped and the
new constraints installed (state `r3`): reassign the shot's cue-ball id (which
can fail inside `cueball`), then recompute the active player index. -/
def Ruleset.advance_rest (r3 : Ruleset) (shot : Shot) :
    Except String (Ruleset × Shot) :=
  match r3.shot_constraints.cueball shot.balls with
  | Except.error e => Except.error e
  | Except.ok cueId =>
    match r3.set_next_player with
    | Except.error e => Except.error e
    | Except.ok r4 => Except.ok (r4, { shot with cue_ball_id := cueId })

/-- Embeds `Ruleset.advance`.  On `game_over` it only appends one log message
and returns; otherwise it bumps the counters, recomputes the constraints via
the subclass hook, and finishes with `advance_rest`. -/
def Ruleset.advance (hooks : Hooks) (r : Ruleset) (shot : Shot) :
    Except String (Ruleset × Shot) :=
  match r.shot_info with
  | none => Except.error "AttributeError: shot_info"
  | some info =>
    if info.game_over then
      match info.winner with
      | some winner =>
        Except.ok
          ({ r with log := r.log.add_msg ("Game over! " ++ winner.name ++ " wins!") "good" false },
            shot)
      | none =>
        Except.ok
          ({ r with log := r.log.add_msg "Game over! Tie game!" "good" false }, shot)
    else
      let r1 := if info.turn_over then { r with turn_number := r.turn_number + 1 } else r
      let r2 := { r1 with shot_number := r1.shot_number + 1 }
      let r3 := { r2 with shot_constraints := hooks.next_shot_constraints r2 shot }
      Ruleset.advance_rest r3 shot

/-- Embeds `Ruleset.process_shot`: builds the shot info via the subclass hook,
adopts its score, then respots balls. -/
def Ruleset.process_shot (hooks : Hooks) (r : Ruleset) (shot : Shot) : Ruleset × Shot :=
  let info := hooks.build_shot_info r shot
  let r1 := { r with shot_info := some info, score := info.score }
  (r1, hooks.respot_balls r1 shot)

/-- Embeds `Ruleset.process_and_advance`. -/
def Ruleset.process_and_advance (hooks : Hooks) (r : Ruleset) (shot : Shot) :
    Except String (Ruleset × Shot) :=
  let ps := Ruleset.process_shot hooks r shot
  Ruleset.advance hooks ps.1 ps.2

end Rules

namespace Evo

/-- The four ball motion states of `pooltool`, compared by identity. -/
inductive BState
  | stationary
  | sliding
  | rolling
  | spinning
deriving DecidableEq, Repr

/-- Simulation times and collision-time deltas: rationals extended with the
`np.inf` sentinel (the top element). -/
abbrev Time := WithTop ℚ

/-- A rigid-body vector component (position, velocity or angular velocity). -/
abbrev Vec3 := ℚ × ℚ × ℚ

/-- A ball's rigid-body state vector `rvw`, passed opaquely to the physics
boundary routines. -/
abbrev Rvw := Vec3 × Vec3 × Vec3

/-- The event kinds that `EvolveShotEventBased.get_next_event` can produce:
the `NonEvent` sentinel, a ball motion-state transition, a ball-ball collision
and a ball-cushion collision. -/
inductive EvType
  | NONE
  | TRANSITION
  | BALL_BALL
  | BALL_CUSHION
deriving DecidableEq, Repr

/-- An event produced by the evolution engine's candidate sources.  The
participating agents are recorded by id; `none` stands for a dummy
placeholder agent (`DummyBall()` / `NonObject()`). -/
structure EvEvent where
  typ : EvType
  agents : List (Option Nat)
  time : Time
deriving DecidableEq, Repr

/-- Embeds `NonEvent(t)`: the "nothing happens" sentinel event. -/
def NonEvent (t : Time) : EvEvent := ⟨EvType.NONE, [none], t⟩

/-- Embeds the fields of the external `Ball` object that the evolution engine
reads, plus its precomputed `next_transition_event`. -/
structure Ball where
  id : Nat
  s : BState
  rvw : Rvw
  R : ℚ
  m : ℚ
  u_s : ℚ
  u_sp : ℚ
  u_r : ℚ
  g : ℚ
  next_transition_event : EvEvent
deriving DecidableEq, Repr

/-- Embeds the rail geometry fields consumed by the rail-collision routine. -/
structure Rail where
  id : Nat
  lx : ℚ
  ly : ℚ
  l0 : ℚ
deriving DecidableEq, Repr

/-- Signature of the external boundary routine
`physics.get_ball_ball_collision_time(rvw1, rvw2, s1, s2, mu1, mu2, m1, m2,
g1, g2, R)`, returning seconds or the infinite sentinel. -/
abbrev BBPhys := Rvw → Rvw → BState → BState → ℚ → ℚ → ℚ → ℚ → ℚ → ℚ → ℚ → Time

/-- Signature of the external boundary routine
`physics.get_ball_rail_collision_time(rvw, s, lx, ly, l0, mu, m, g, R)`. -/
abbrev BRPhys := Rvw → BState → ℚ → ℚ → ℚ → ℚ → ℚ → ℚ → ℚ → Time

/-- The ball-ball collision-time call exactly as `get_min_ball_ball_event_time`
makes it: each ball contributes its sliding friction coefficient when it is
sliding and its rolling coefficient otherwise, and the shared radius is taken
from the first ball. -/
def dtauBB (phys : BBPhys) (b1 b2 : Ball) : Time :=
  phys b1.rvw b2.rvw b1.s b2.s
    (if b1.s = BState.sliding then b1.u_s else b1.u_r)
    (if b2.s = BState.sliding then b2.u_s else b2.u_r)
    b1.m b2.m b1.g b2.g b1.R

/-- The ball-rail collision-time call exactly as `get_min_ball_rail_event_time`
makes it. -/
def dtauBR (phys : BRPhys) (b : Ball) (r : Rail) : Time :=
  phys b.rvw b.s r.lx r.ly r.l0
    (if b.s = BState.sliding then b.u_s else b.u_r)
    b.m b.g b.R

/-- Both balls of a candidate pair are stationary (such pairs are skipped by
`get_min_ball_ball_event_time`). -/
def bothStationary (p : Ball × Ball) : Prop :=
  p.1.s = BState.stationary ∧ p.2.s = BState.stationary

instance (p : Ball × Ball) : Decidable (bothStationary p) := by
  unfold bothStationary
  infer_instance

/-- The ordered pairs visited by the double loop
`for i, ball1 in enumerate(...): for j, ball2 in enumerate(...): if i >= j:
continue` — every pair of distinct positions, first component earlier. -/
def allPairs : List Ball → List (Ball × Ball)
  | [] => []
  | b :: bs => bs.map (fun c => (b, c)) ++ allPairs bs

/-- The accumulator loop of `get_min_ball_ball_event_time`: keeps the strict
minimum collision time over considered pairs, together with the involved pair
(`none` while still the initial `DummyBall` pair). -/
def minBBLoop (phys : BBPhys) :
    List (Ball × Ball) → Time → Option (Ball × Ball) → Time × Option (Ball × Ball)
  | [], dmin, inv => (dmin, inv)
  | p :: ps, dmin, inv =>
    if bothStationary p then
      minBBLoop phys ps dmin inv
    else if dtauBB phys p.1 p.2 < dmin then
      minBBLoop phys ps (dtauBB phys p.1 p.2) (some p)
    else
      minBBLoop phys ps dmin inv

/-- Embeds `BallBallCollision(ball1, ball2, t)` at the granularity the claims
need: the event type, the two agents in order, and the time. -/
def BallBallCollision (inv : Option (Ball × Ball)) (t : Time) : EvEvent :=
  match inv with
  | none => ⟨EvType.BALL_BALL, [none, none], t⟩
  | some p => ⟨EvType.BALL_BALL, [some p.1.id, some p.2.id], t⟩

/-- Embeds `EvolveShotEventBased.get_min_ball_ball_event_time`. -/
def get_min_ball_ball_event_time (phys : BBPhys) (t : ℚ) (balls : List Ball) : EvEvent :=
  let r := minBBLoop phys (allPairs balls) ⊤ none
  BallBallCollision r.2 ((t : Time) + r.1)

/-- Inner loop of `get_min_ball_rail_event_time` over the rails of the table
for one (non-stationary) ball. -/
def minBRRailLoop (phys : BRPhys) (b : Ball) :
    List Rail → Time → Option (Ball × Rail) → Time × Option (Ball × Rail)
  | [], dmin, inv => (dmin, inv)
  | r :: rs, dmin, inv =>
    if dtauBR phys b r < dmin then
      minBRRailLoop phys b rs (dtauBR phys b r) (some (b, r))
    else
      minBRRailLoop phys b rs dmin inv

/-- Outer loop of `get_min_ball_rail_event_time` over the balls, skipping
stationary balls entirely. -/
def minBRLoop (phys : BRPhys) (rails : List Rail) :
    List Ball → Time → Option (Ball × Rail) → Time × Option (Ball × Rail)
  | [], dmin, inv => (dmin, inv)
  | b :: bs, dmin, inv =>
    if b.s = BState.stationary then
      minBRLoop phys rails bs dmin inv
    else
      let r := minBRRailLoop phys b rails dmin inv
      minBRLoop phys rails bs r.1 r.2

/-- Embeds `BallCushionCollision(ball, rail, t)` at the granularity the claims
need. -/
def BallCushionCollision (inv : Option (Ball × Rail)) (t : Time) : EvEvent :=
  match inv with
  | none => ⟨EvType.BALL_CUSHION, [none, none], t⟩
  | some p => ⟨EvType.BALL_CUSHION, [some p.1.id, some p.2.id], t⟩

/-- Embeds `EvolveShotEventBased.get_min_ball_rail_event_time`. -/
def get_min_ball_rail_event_time (phys : BRPhys) (t : ℚ) (balls : List Ball)
    (rails : List Rail) : EvEvent :=
  let r := minBRLoop phys rails balls ⊤ none
  BallCushionCollision r.2 ((t : Time) + r.1)

/-- The loop of `get_min_transition_event_time`: keeps the running candidate,
replacing it whenever a ball's precomputed transition event is no later
(non-strict comparison, so the last ball wins exact ties). -/
def minTransLoop : List Ball → EvEvent → EvEvent
  | [], e => e
  | b :: bs, e =>
    minTransLoop bs
      (if b.next_transition_event.time ≤ e.time then b.next_transition_event else e)

/-- Embeds `EvolveShotEventBased.get_min_transition_event_time`. -/
def get_min_transition_event_time (balls : List Ball) : EvEvent :=
  minTransLoop balls (NonEvent ⊤)

/-- Embeds `EvolveShotEventBased.get_next_event`: starts from the infinite
sentinel and lets each of the three candidate sources replace the running
event under a strict `<` comparison, in the order transition, ball-ball,
ball-rail. -/
def get_next_event (bb : BBPhys) (br : BRPhys) (t : ℚ) (balls : List Ball)
    (rails : List Rail) : EvEvent :=
  let event0 := NonEvent ⊤
  let te := get_min_transition_event_time balls
  let event1 := if te.time < event0.time then te else event0
  let be := get_min_ball_ball_event_time bb t balls
  let event2 := if be.time < event1.time then be else event1
  let ce := get_min_ball_rail_event_time br t balls rails
  if ce.time < event2.time then ce else event2

end Evo

namespace Events

/-- Embeds `EventType` from `pooltool/events/datatypes.py`. -/
inductive EventType
  | NONE
  | BALL_BALL
  | BALL_LINEAR_CUSHION
  | BALL_CIRCULAR_CUSHION
  | BALL_POCKET
  | STICK_BALL
  | SPINNING_STATIONARY
  | ROLLING_STATIONARY
  | ROLLING_SPINNING
  | SLIDING_ROLLING
deriving DecidableEq, Repr

/-- External object model stand-ins, identified by their id strings.  Their
physical fields play no role in the factory constructors. -/
structure Ball where
  id : String
deriving DecidableEq, Repr

/-- External cue stick stand-in. -/
structure Cue where
  id : String
deriving DecidableEq, Repr

/-- External linear cushion segment stand-in. -/
structure LinearCushionSegment where
  id : String
deriving DecidableEq, Repr

/-- External circular cushion segment stand-in. -/
structure CircularCushionSegment where
  id : String
deriving DecidableEq, Repr

/-- External pocket stand-in. -/
structure Pocket where
  id : String
deriving DecidableEq, Repr

/-- The kinds of object an `Agent` can wrap. -/
inductive Obj
  | null
  | ball (b : Ball)
  | cue (c : Cue)
  | linearCushion (s : LinearCushionSegment)
  | circularCushion (s : CircularCushionSegment)
  | pocket (p : Pocket)
deriving DecidableEq, Repr

/-- Embeds `Agent`.  In this pure embedding a frozen snapshot of an object is
the object value itself, so the agent records the wrapped object together with
whether a snapshot was requested (`set_initial`). -/
structure Agent where
  obj : Obj
  initial : Bool
deriving DecidableEq, Repr

/-- Embeds `Agent.from_object`. -/
def Agent.from_object (o : Obj) (set_initial : Bool) : Agent := ⟨o, set_initial⟩

/-- Embeds `Event` from `pooltool/events/datatypes.py` at the granularity of
the factory constructors: kind, ordered agent tuple, time. -/
structure Event where
  event_type : EventType
  agents : List Agent
  time : ℚ
deriving DecidableEq, Repr

/-- Embeds `null_event`. -/
def null_event (time : ℚ) (set_initial : Bool) : Event :=
  ⟨EventType.NONE, [Agent.from_object Obj.null set_initial], time⟩

/-- Embeds `ball_ball_collision`. -/
def ball_ball_collision (ball1 ball2 : Ball) (time : ℚ) (set_initial : Bool) : Event :=
  ⟨EventType.BALL_BALL,
    [Agent.from_object (Obj.ball ball1) set_initial,
      Agent.from_object (Obj.ball ball2) set_initial],
    time⟩

/-- Embeds `ball_linear_cushion_collision`. -/
def ball_linear_cushion_collision (ball : Ball) (cushion : LinearCushionSegment)
    (time : ℚ) (set_initial : Bool) : Event :=
  ⟨EventType.BALL_LINEAR_CUSHION,
    [Agent.from_object (Obj.ball ball) set_initial,
      Agent.from_object (Obj.linearCushion cushion) set_initial],
    time⟩

/-- Embeds `ball_circular_cushion_collision`. -/
def ball_circular_cushion_collision (ball : Ball) (cushion : CircularCushionSegment)
    (time : ℚ) (set_initial : Bool) : Event :=
  ⟨EventType.BALL_CIRCULAR_CUSHION,
    [Agent.from_object (Obj.ball ball) set_initial,
      Agent.from_object (Obj.circularCushion cushion) set_initial],
    time⟩

/-- Embeds `ball_pocket_collision`. -/
def ball_pocket_collision (ball : Ball) (pocket : Pocket) (time : ℚ)
    (set_initial : Bool) : Event :=
  ⟨EventType.BALL_POCKET,
    [Agent.from_object (Obj.ball ball) set_initial,
      Agent.from_object (Obj.pocket pocket) set_initial],
    time⟩

/-- Embeds `stick_ball_collision` (stick agent before ball agent). -/
def stick_ball_collision (stick : Cue) (ball : Ball) (time : ℚ)
    (set_initial : Bool) : Event :=
  ⟨EventType.STICK_BALL,
    [Agent.from_object (Obj.cue stick) set_initial,
      Agent.from_object (Obj.ball ball) set_initial],
    time⟩

/-- Embeds `spinning_stationary_transition`. -/
def spinning_stationary_transition (ball : Ball) (time : ℚ) (set_initial : Bool) : Event :=
  ⟨EventType.SPINNING_STATIONARY, [Agent.from_object (Obj.ball ball) set_initial], time⟩

/-- Embeds `rolling_stationary_transition`. -/
def rolling_stationary_transition (ball : Ball) (time : ℚ) (set_initial : Bool) : Event :=
  ⟨EventType.ROLLING_STATIONARY, [Agent.from_object (Obj.ball ball) set_initial], time⟩

/-- Embeds `rolling_spinning_transition`. -/
def rolling_spinning_transition (ball : Ball) (time : ℚ) (set_initial : Bool) : Event :=
  ⟨EventType.ROLLING_SPINNING, [Agent.from_object (Obj.ball ball) set_initial], time⟩

/-- Embeds `sliding_rolling_transition`. -/
def sliding_rolling_transition (ball : Ball) (time : ℚ) (set_initial : Bool) : Event :=
  ⟨EventType.SLIDING_ROLLING, [Agent.from_object (Obj.ball ball) set_initial], time⟩

end Events

namespace Evolve

/-- The concrete evolution-algorithm variants of the registry in
`pooltool/evolution.py` (it contains exactly the event-based one). -/
inductive Algorithm
  | eventBased
deriving DecidableEq, Repr

/-- Embeds the module-level registry `avail_algorithms`. -/
def avail_algorithms : List (String × Algorithm) :=
  [("event-based", Algorithm.eventBased)]

/-- Renders a list of strings the way Python's `list` repr does in the error
message: bracketed, comma separated, each element quoted. -/
def pyReprStrList (l : List String) : String :=
  "[" ++ String.intercalate ", " (l.map (fun s => "\x27" ++ s ++ "\x27")) ++ "]"

/-- The `ValueError` message raised by `EvolveShot.__new__` for an
unregistered algorithm name, with the registered names interpolated at the
end. -/
def algorithm_error_msg (algorithm : String) : String :=
  "You are expecting to evolve the system with algorithm \x27" ++ algorithm ++
    "\x27, which is not one of the possible db_types. Choose from: " ++
    pyReprStrList (avail_algorithms.map Prod.fst)

/-- Embeds the variant selection performed by `EvolveShot.__new__`: an
unregistered name raises; a registered name selects its variant. -/
def EvolveShot_new (algorithm : String) : Except String Algorithm :=
  match avail_algorithms.lookup algorithm with
  | none => Except.error (algorithm_error_msg algorithm)
  | some cls => Except.ok cls

/-- Python `int()` applied to a (rational-valued) float: truncation toward
zero. -/
def pyInt (q : ℚ) : ℤ :=
  if 0 ≤ q then ⌊q⌋ else ⌈q⌉

/-- Modelled from the spec: the spec's `round(energy_start)` — Python's
`round`, which rounds half to even.  (The rounding routine itself is not part
of the provided sources; only this spec-side comparison point uses it.) -/
def roundHalfToEven (q : ℚ) : ℤ :=
  if (q - (⌊q⌋ : ℚ)) < 1 / 2 then ⌊q⌋
  else if (1 / 2 : ℚ) < q - (⌊q⌋ : ℚ) then ⌊q⌋ + 1
  else if Even ⌊q⌋ then ⌊q⌋ else ⌊q⌋ + 1

/-- The value `simulate` passes as `progress_total_items` when starting the
progress indicator: `int(energy_start)`. -/
def progress_total_items (energy_start : ℚ) : ℤ := pyInt energy_start

/-- The value `progress_update` passes as `increment_to`:
`int(energy_start - energy)` with `energy` the current system energy. -/
def progress_increment_to (energy_start energy : ℚ) : ℤ :=
  pyInt (energy_start - energy)

end Evolve

section ClaimC7

/-- Claim C7: `Player.create_players` fails with an invalid-input error
whenever any two supplied names are equal, and when called with no names it
returns exactly two players named "Player 1" and "Player 2" in that order. -/
theorem C7_create_players :
    (∀ (names : List String) (i j : Fin names.length), i ≠ j →
      names.get i = names.get j →
      Rules.Player.create_players (some names) =
        Except.error "Player names must be unique") ∧
    Rules.Player.create_players none =
      Except.ok [Rules.Player.mk "Player 1", Rules.Player.mk "Player 2"] := by
  constructor
  · intro names i j hij hget
    have hnotnodup : ¬ names.Nodup := by
      intro hnd
      exact hij (List.nodup_iff_injective_get.mp hnd hget)
    have hlen : names.length ≠ names.dedup.length := by
      intro heq
      have heq2 : names.dedup = names :=
        (List.dedup_sublist names).eq_of_length heq.symm
      exact hnotnodup (heq2 ▸ List.nodup_dedup names)
    simp [Rules.Player.create_players, hlen]
  · rfl

/-- Witness for C7 at the concrete inputs of the spec's example. -/
theorem C7_create_players_witness :
    Rules.Player.create_players (some ["A", "B", "A"]) =
      Except.error "Player names must be unique" :=
  C7_create_players.1 ["A", "B", "A"] ⟨0, by decide⟩ ⟨2, by decide⟩
    (by decide) (by decide)

end ClaimC7

section ClaimC8

/-- Claim C8: `ShotConstraints.cueball(balls)` returns the first entry of an
explicitly set cueable list; otherwise, for every non-empty ball collection,
it returns the first id present among "cue", "white", "yellow" probed in that
fixed order, and if none of the three is present it returns the first id of
the collection in insertion order. -/
theorem C8_cueball (sc : Rules.ShotConstraints) (balls : Rules.Balls) :
    (∀ c cs, sc.cueable = some (c :: cs) → sc.cueball balls = Except.ok c) ∧
    (sc.cueable = none → balls ≠ [] →
      ((balls.contains "cue" = true → sc.cueball balls = Except.ok "cue") ∧
        (balls.contains "cue" = false → balls.contains "white" = true →
          sc.cueball balls = Except.ok "white") ∧
        (balls.contains "cue" = false → balls.contains "white" = false →
          balls.contains "yellow" = true → sc.cueball balls = Except.ok "yellow") ∧
        (balls.contains "cue" = false → balls.contains "white" = false →
          balls.contains "yellow" = false → ∀ b bs, balls = b :: bs →
            sc.cueball balls = Except.ok b))) := by
  constructor
  · intro c cs hc
    simp [Rules.ShotConstraints.cueball, hc]
  · intro hc hne
    cases balls with
    | nil => exact absurd rfl hne
    | cons b bs =>
      refine ⟨?_, ?_, ?_, ?_⟩
      · intro h1
        simp at h1
        simp [Rules.ShotConstraints.cueball, hc, h1]
      · intro h1 h2
        simp at h1 h2
        simp [Rules.ShotConstraints.cueball, hc, h1, h2]
      · intro h1 h2 h3
        simp at h1 h2 h3
        simp [Rules.ShotConstraints.cueball, hc, h1, h2, h3]
      · intro h1 h2 h3 b' bs' hbb
        cases hbb
        simp at h1 h2 h3
        simp [Rules.ShotConstraints.cueball, hc, h1, h2, h3]

/-- A `ShotConstraints` value with no explicit cueable list. -/
def scNoCueable : Rules.ShotConstraints :=
  ⟨Rules.BallInHandOptions.NONE, none, none, [], false, none, none⟩

/-- A `ShotConstraints` value with the explicit cueable list `["7", "3"]`. -/
def scCueableTwo : Rules.ShotConstraints :=
  ⟨Rules.BallInHandOptions.NONE, none, some ["7", "3"], [], false, none, none⟩

/-- A `ShotConstraints` value with the explicit cueable list `[]`. -/
def scCueableEmpty : Rules.ShotConstraints :=
  ⟨Rules.BallInHandOptions.NONE, none, some [], [], false, none, none⟩

/-- Witness for C8 at the spec's two example collections. -/
theorem C8_cueball_witness :
    scNoCueable.cueball ["8", "cue"] = Except.ok "cue" ∧
    scNoCueable.cueball ["red", "yellow"] = Except.ok "yellow" := by
  constructor
  · exact ((C8_cueball scNoCueable ["8", "cue"]).2 rfl (by decide)).1 (by decide)
  · exact ((C8_cueball scNoCueable ["red", "yellow"]).2 rfl (by decide)).2.2.1
      (by decide) (by decide) (by decide)

end ClaimC8

section ClaimC10

/-- Claim C10: when an explicit cueable list is set, `cueball` returns its
first entry without inspecting the balls collection at all; it succeeds on an
empty balls collection whenever the cueable list is non-empty, and fails only
if the cueable list itself is empty. -/
theorem C10_cueball_explicit (sc : Rules.ShotConstraints) :
    (∀ c cs, sc.cueable = some (c :: cs) → ∀ balls balls' : Rules.Balls,
      sc.cueball balls = sc.cueball balls') ∧
    (∀ c cs, sc.cueable = some (c :: cs) → sc.cueball [] = Except.ok c) ∧
    (sc.cueable = some [] → ∀ balls : Rules.Balls,
      sc.cueball balls = Except.error "IndexError: list index out of range") := by
  refine ⟨?_, ?_, ?_⟩
  · intro c cs hc balls balls'
    simp [Rules.ShotConstraints.cueball, hc]
  · intro c cs hc
    simp [Rules.ShotConstraints.cueball, hc]
  · intro hc balls
    simp [Rules.ShotConstraints.cueball, hc]

/-- Witness for C10: success on an empty ball collection with a non-empty
cueable list, failure with an empty cueable list. -/
theorem C10_cueball_explicit_witness :
    scCueableTwo.cueball [] = Except.ok "7" ∧
    scCueableEmpty.cueball ["cue"] =
      Except.error "IndexError: list index out of range" := by
  constructor
  · exact (C10_cueball_explicit scCueableTwo).2.1 "7" ["3"] rfl
  · exact (C10_cueball_explicit scCueableEmpty).2.2 rfl ["cue"]

end ClaimC10

section ClaimC9

/-- Claim C9: every event-factory constructor produces an `Event` whose
`event_type` matches the constructor used, whose `time` equals the time
argument, and whose agent tuple has exactly one agent for the NONE and four
motion-state-transition kinds and exactly two agents in the documented fixed
order (stick before ball; ball before cushion or pocket) for the collision
and strike kinds. -/
theorem C9_event_factory (t : ℚ) (si : Bool) (b1 b2 : Events.Ball)
    (stick : Events.Cue) (lc : Events.LinearCushionSegment)
    (cc : Events.CircularCushionSegment) (pk : Events.Pocket) :
    ((Events.null_event t si).event_type = Events.EventType.NONE ∧
      (Events.null_event t si).time = t ∧
      (Events.null_event t si).agents =
        [Events.Agent.from_object Events.Obj.null si]) ∧
    ((Events.ball_ball_collision b1 b2 t si).event_type =
        Events.EventType.BALL_BALL ∧
      (Events.ball_ball_collision b1 b2 t si).time = t ∧
      (Events.ball_ball_collision b1 b2 t si).agents =
        [Events.Agent.from_object (Events.Obj.ball b1) si,
          Events.Agent.from_object (Events.Obj.ball b2) si]) ∧
    ((Events.ball_linear_cushion_collision b1 lc t si).event_type =
        Events.EventType.BALL_LINEAR_CUSHION ∧
      (Events.ball_linear_cushion_collision b1 lc t si).time = t ∧
      (Events.ball_linear_cushion_collision b1 lc t si).agents =
        [Events.Agent.from_object (Events.Obj.ball b1) si,
          Events.Agent.from_object (Events.Obj.linearCushion lc) si]) ∧
    ((Events.ball_circular_cushion_collision b1 cc t si).event_type =
        Events.EventType.BALL_CIRCULAR_CUSHION ∧
      (Events.ball_circular_cushion_collision b1 cc t si).time = t ∧
      (Events.ball_circular_cushion_collision b1 cc t si).agents =
        [Events.Agent.from_object (Events.Obj.ball b1) si,
          Events.Agent.from_object (Events.Obj.circularCushion cc) si]) ∧
    ((Events.ball_pocket_collision b1 pk t si).event_type =
        Events.EventType.BALL_POCKET ∧
      (Events.ball_pocket_collision b1 pk t si).time = t ∧
      (Events.ball_pocket_collision b1 pk t si).agents =
        [Events.Agent.from_object (Events.Obj.ball b1) si,
          Events.Agent.from_object (Events.Obj.pocket pk) si]) ∧
    ((Events.stick_ball_collision stick b1 t si).event_type =
        Events.EventType.STICK_BALL ∧
      (Events.stick_ball_collision stick b1 t si).time = t ∧
      (Events.stick_ball_collision stick b1 t si).agents =
        [Events.Agent.from_object (Events.Obj.cue stick) si,
          Events.Agent.from_object (Events.Obj.ball b1) si]) ∧
    ((Events.spinning_stationary_transition b1 t si).event_type =
        Events.EventType.SPINNING_STATIONARY ∧
      (Events.spinning_stationary_transition b1 t si).time = t ∧
      (Events.spinning_stationary_transition b1 t si).agents =
        [Events.Agent.from_object (Events.Obj.ball b1) si]) ∧
    ((Events.rolling_stationary_transition b1 t si).event_type =
        Events.EventType.ROLLING_STATIONARY ∧
      (Events.rolling_stationary_transition b1 t si).time = t ∧
      (Events.rolling_stationary_transition b1 t si).agents =
        [Events.Agent.from_object (Events.Obj.ball b1) si]) ∧
    ((Events.rolling_spinning_transition b1 t si).event_type =
        Events.EventType.ROLLING_SPINNING ∧
      (Events.rolling_spinning_transition b1 t si).time = t ∧
      (Events.rolling_spinning_transition b1 t si).agents =
        [Events.Agent.from_object (Events.Obj.ball b1) si]) ∧
    ((Events.sliding_rolling_transition b1 t si).event_type =
        Events.EventType.SLIDING_ROLLING ∧
      (Events.sliding_rolling_transition b1 t si).time = t ∧
      (Events.sliding_rolling_transition b1 t si).agents =
        [Events.Agent.from_object (Events.Obj.ball b1) si]) :=
  ⟨⟨rfl, rfl, rfl⟩, ⟨rfl, rfl, rfl⟩, ⟨rfl, rfl, rfl⟩, ⟨rfl, rfl, rfl⟩,
    ⟨rfl, rfl, rfl⟩, ⟨rfl, rfl, rfl⟩, ⟨rfl, rfl, rfl⟩, ⟨rfl, rfl, rfl⟩,
    ⟨rfl, rfl, rfl⟩, ⟨rfl, rfl, rfl⟩⟩

end ClaimC9

section ClaimC6

/-- The error message decomposes around the rendered registry key, exposing
"event-based" as a contiguous substring. -/
lemma algorithm_error_msg_decomp (name : String) :
    (Evolve.algorithm_error_msg name).toList =
      (("You are expecting to evolve the system with algorithm \x27" ++ name ++
          "\x27, which is not one of the possible db_types. Choose from: [\x27").toList ++
        "event-based".toList) ++ "\x27]".toList := by
  have hP : Evolve.pyReprStrList (Evolve.avail_algorithms.map Prod.fst) =
      "[\x27event-based\x27]" := by decide
  simp only [Evolve.algorithm_error_msg, hP, String.toList, String.data_append,
    List.append_assoc]
  congr 1

/-- Claim C6: the registry contains exactly the entry "event-based";
constructing an `EvolveShot` with an unregistered algorithm name fails
immediately with an error whose message contains every registered name, and
construction with a registered name selects that variant. -/
theorem C6_algorithm_registry :
    (Evolve.avail_algorithms.map Prod.fst = ["event-based"]) ∧
    (∀ name : String, Evolve.avail_algorithms.lookup name = none →
      ∃ msg, Evolve.EvolveShot_new name = Except.error msg ∧
        ∀ k ∈ Evolve.avail_algorithms.map Prod.fst, k.toList <:+: msg.toList) ∧
    (∀ name cls, Evolve.avail_algorithms.lookup name = some cls →
      Evolve.EvolveShot_new name = Except.ok cls) := by
  refine ⟨rfl, ?_, ?_⟩
  · intro name h
    refine ⟨Evolve.algorithm_error_msg name, ?_, ?_⟩
    · simp [Evolve.EvolveShot_new, h]
    · intro k hk
      have hk2 : k = "event-based" := by
        simpa [Evolve.avail_algorithms] using hk
      subst hk2
      exact ⟨_, _, (algorithm_error_msg_decomp name).symm⟩
  · intro name cls h
    simp [Evolve.EvolveShot_new, h]

/-- Witness for C6: the unregistered name "foo" yields the enumerating error,
and the registered name selects the event-based variant. -/
theorem C6_algorithm_registry_witness :
    (∃ msg, Evolve.EvolveShot_new "foo" = Except.error msg ∧
      ∀ k ∈ Evolve.avail_algorithms.map Prod.fst, k.toList <:+: msg.toList) ∧
    Evolve.EvolveShot_new "event-based" = Except.ok Evolve.Algorithm.eventBased := by
  constructor
  · exact C6_algorithm_registry.2.1 "foo" (by decide)
  · exact C6_algorithm_registry.2.2 "event-based" Evolve.Algorithm.eventBased (by decide)

end ClaimC6

section ClaimC5

/-- Counterexample to claim C5 as stated: at `energy_start = 27/10` the
progress target passed by `simulate` is `int(energy_start) = 2`, not
`round(energy_start) = 3`. -/
theorem C5_progress_counterexample :
    Evolve.progress_total_items (27 / 10) = 2 ∧
    Evolve.roundHalfToEven (27 / 10) = 3 ∧
    Evolve.progress_total_items (27 / 10) ≠ Evolve.roundHalfToEven (27 / 10) := by
  have hfloor : ⌊(27 / 10 : ℚ)⌋ = 2 := by norm_num [Int.floor_eq_iff]
  refine ⟨?_, ?_, ?_⟩
  · simp [Evolve.progress_total_items, Evolve.pyInt, hfloor]
    norm_num
  · simp [Evolve.roundHalfToEven, hfloor]
    norm_num
  · simp [Evolve.progress_total_items, Evolve.pyInt, Evolve.roundHalfToEven, hfloor]
    norm_num

/-- Claim C5 as amended: the target passed when starting the progress counter
is `int(energy_start)` (Python truncation toward zero, not `round`), and the
periodic update passes `increment_to = int(energy_start - energy_now)`; while
the current energy stays between `0` and the starting energy this value is a
non-negative integer no larger than the target. -/
theorem C5_progress_amended (es en : ℚ) (h0 : 0 ≤ en) (hle : en ≤ es) :
    Evolve.progress_total_items es = Evolve.pyInt es ∧
    Evolve.progress_increment_to es en = Evolve.pyInt (es - en) ∧
    0 ≤ Evolve.progress_increment_to es en ∧
    Evolve.progress_increment_to es en ≤ Evolve.progress_total_items es := by
  have hsub : (0 : ℚ) ≤ es - en := by linarith
  have hes : (0 : ℚ) ≤ es := le_trans h0 hle
  refine ⟨rfl, rfl, ?_, ?_⟩
  · simp only [Evolve.progress_increment_to, Evolve.pyInt, if_pos hsub]
    exact Int.floor_nonneg.mpr hsub
  · simp only [Evolve.progress_increment_to, Evolve.progress_total_items,
      Evolve.pyInt, if_pos hsub, if_pos hes]
    exact Int.floor_le_floor (by linarith)

/-- Witness for the amended C5 at `energy_start = 27/10`, current energy 1. -/
theorem C5_progress_amended_witness :
    Evolve.progress_total_items (27 / 10) = Evolve.pyInt (27 / 10) ∧
    Evolve.progress_increment_to (27 / 10) 1 = Evolve.pyInt (27 / 10 - 1) ∧
    0 ≤ Evolve.progress_increment_to (27 / 10) 1 ∧
    Evolve.progress_increment_to (27 / 10) 1 ≤ Evolve.progress_total_items (27 / 10) :=
  C5_progress_amended (27 / 10) 1 (by norm_num) (by norm_num)

end ClaimC5

section ClaimC3

/-- A concrete instantiation of the abstract subclass hooks, used to
instantiate theorems at explicit inputs. -/
def hooksTrivial : Rules.Hooks :=
  { build_shot_info := fun _ _ =>
      ⟨⟨"Player 1"⟩, true, "", false, false, none, []⟩
    next_shot_constraints := fun r _ => r.shot_constraints
    initial_shot_constraints := scNoCueable
    respot_balls := fun _ s => s }

/-- A concrete terminal `ShotInfo`: game over with winner "Alice". -/
def infoWin : Rules.ShotInfo :=
  ⟨⟨"Alice"⟩, true, "legal", false, true, some ⟨"Alice"⟩, []⟩

/-- A concrete `Ruleset` state whose current shot info reports game over. -/
def rulesetGameOver : Rules.Ruleset :=
  { score := []
    shot_number := 3
    turn_number := 2
    shot_constraints := scNoCueable
    shot_info := some infoWin
    players := [⟨"Alice"⟩, ⟨"Bob"⟩]
    active_idx := 0
    log := Rules.Log.init }

/-- A concrete shot. -/
def shotCue : Rules.Shot := ⟨["cue", "8"], "cue"⟩

/-- Claim C3: for every `Ruleset` whose current `shot_info` has
`game_over = true`, `advance(shot)` appends exactly one log entry — the
"Game over! `<winner>` wins!" message with sentiment "good" when a winner is
defined, or the tie message when not — and leaves `turn_number`,
`shot_number`, `active_idx`, and `shot_constraints` unchanged. -/
theorem C3_advance_game_over (hooks : Rules.Hooks) (r : Rules.Ruleset)
    (shot : Rules.Shot) (info : Rules.ShotInfo)
    (hinfo : r.shot_info = some info) (hg : info.game_over = true) :
    ∃ r' : Rules.Ruleset,
      Rules.Ruleset.advance hooks r shot = Except.ok (r', shot) ∧
      r'.turn_number = r.turn_number ∧
      r'.shot_number = r.shot_number ∧
      r'.active_idx = r.active_idx ∧
      r'.shot_constraints = r.shot_constraints ∧
      ((∃ w, info.winner = some w ∧
          r'.log.msgs = r.log.msgs ++
            [⟨"Game over! " ++ w.name ++ " wins!", "good", false, false⟩]) ∨
        (info.winner = none ∧
          r'.log.msgs = r.log.msgs ++
            [⟨"Game over! Tie game!", "good", false, false⟩])) := by
  cases hw : info.winner with
  | some w =>
    refine ⟨{ r with log :=
        r.log.add_msg ("Game over! " ++ w.name ++ " wins!") "good" false },
      ?_, rfl, rfl, rfl, rfl, Or.inl ⟨w, rfl, rfl⟩⟩
    simp [Rules.Ruleset.advance, hinfo, hg, hw]
  | none =>
    refine ⟨{ r with log := r.log.add_msg "Game over! Tie game!" "good" false },
      ?_, rfl, rfl, rfl, rfl, Or.inr ⟨rfl, rfl⟩⟩
    simp [Rules.Ruleset.advance, hinfo, hg, hw]

/-- Witness for C3 at the concrete game-over state. -/
theorem C3_advance_game_over_witness :
    ∃ r' : Rules.Ruleset,
      Rules.Ruleset.advance hooksTrivial rulesetGameOver shotCue =
        Except.ok (r', shotCue) ∧
      r'.turn_number = rulesetGameOver.turn_number ∧
      r'.shot_number = rulesetGameOver.shot_number ∧
      r'.active_idx = rulesetGameOver.active_idx ∧
      r'.shot_constraints = rulesetGameOver.shot_constraints ∧
      ((∃ w, infoWin.winner = some w ∧
          r'.log.msgs = rulesetGameOver.log.msgs ++
            [⟨"Game over! " ++ w.name ++ " wins!", "good", false, false⟩]) ∨
        (infoWin.winner = none ∧
          r'.log.msgs = rulesetGameOver.log.msgs ++
            [⟨"Game over! Tie game!", "good", false, false⟩])) :=
  C3_advance_game_over hooksTrivial rulesetGameOver shotCue infoWin rfl rfl

end ClaimC3

section ClaimC4

/-- The invariant of claim C4: the active player index is the turn number
modulo the roster size, and in particular a valid roster position. -/
def activeIdxInv (r : Rules.Ruleset) : Prop :=
  r.active_idx = r.turn_number % r.players.length ∧
  r.active_idx < r.players.length

/-- A successful `set_next_player` requires a non-empty roster and only
recomputes `active_idx` as `turn_number % len(players)`. -/
lemma set_next_player_ok (r r' : Rules.Ruleset)
    (h : r.set_next_player = Except.ok r') :
    r.players.length ≠ 0 ∧
    r' = { r with active_idx := r.turn_number % r.players.length } := by
  unfold Rules.Ruleset.set_next_player at h
  split at h
  · simp at h
  · rename_i hlen
    injection h with h
    exact ⟨hlen, h.symm⟩

/-- A successful `advance_rest` requires a non-empty roster in the state it
was handed and only rewrites its `active_idx` field. -/
lemma advance_rest_ok (r3 : Rules.Ruleset) (shot : Rules.Shot)
    (r' : Rules.Ruleset) (shot' : Rules.Shot)
    (h : Rules.Ruleset.advance_rest r3 shot = Except.ok (r', shot')) :
    r3.players.length ≠ 0 ∧
    r' = { r3 with active_idx := r3.turn_number % r3.players.length } := by
  unfold Rules.Ruleset.advance_rest at h
  split at h
  · simp at h
  · split at h
    · simp at h
    · rename_i r4 hsnp
      injection h with h
      obtain ⟨hlen, hr4⟩ := set_next_player_ok _ _ hsnp
      cases h
      exact ⟨hlen, hr4⟩

/-- Every successful `advance` either takes the terminal game-over path
(roster, active index and turn number untouched) or ends in the
`set_next_player` recomputation. -/
lemma advance_ok_shape (hooks : Rules.Hooks) (r : Rules.Ruleset)
    (shot : Rules.Shot) (r' : Rules.Ruleset) (shot' : Rules.Shot)
    (h : Rules.Ruleset.advance hooks r shot = Except.ok (r', shot')) :
    (r'.players = r.players ∧ r'.active_idx = r.active_idx ∧
      r'.turn_number = r.turn_number) ∨
    (r'.players = r.players ∧ r'.players.length ≠ 0 ∧
      r'.active_idx = r'.turn_number % r'.players.length) := by
  unfold Rules.Ruleset.advance at h
  split at h
  · simp at h
  · rename_i info _
    split at h
    · split at h
      · injection h with h
        cases h
        exact Or.inl ⟨rfl, rfl, rfl⟩
      · injection h with h
        cases h
        exact Or.inl ⟨rfl, rfl, rfl⟩
    · obtain ⟨hlen, hr'⟩ := advance_rest_ok _ shot r' shot' h
      subst hr'
      refine Or.inr ⟨?_, hlen, rfl⟩
      by_cases ht : info.turn_over <;> simp [ht]

/-- A fresh `Ruleset` satisfies the active-index invariant whenever its
roster is non-empty. -/
lemma init_activeIdxInv (hooks : Rules.Hooks) (names : Option (List String))
    (r : Rules.Ruleset) (h : Rules.Ruleset.init hooks names = Except.ok r)
    (hne : r.players ≠ []) : activeIdxInv r := by
  unfold Rules.Ruleset.init at h
  split at h
  · simp at h
  · injection h with h
    subst h
    refine ⟨by simp, ?_⟩
    simpa [List.length_pos] using hne

/-- Claim C4 as amended: provided the roster is non-empty — which the code
does not force, see the counterexample — `active_idx` equals
`turn_number mod len(players)` and lies in `[0, player count)` after
construction, and this invariant is preserved by every completed `advance`,
by `process_shot`, and hence by every completed `process_and_advance`. -/
theorem C4_active_idx_amended :
    (∀ (hooks : Rules.Hooks) (names : Option (List String)) (r : Rules.Ruleset),
      Rules.Ruleset.init hooks names = Except.ok r → r.players ≠ [] →
      activeIdxInv r) ∧
    (∀ (hooks : Rules.Hooks) (r : Rules.Ruleset) (shot : Rules.Shot)
      (r' : Rules.Ruleset) (shot' : Rules.Shot), activeIdxInv r →
      Rules.Ruleset.advance hooks r shot = Except.ok (r', shot') →
      activeIdxInv r') ∧
    (∀ (hooks : Rules.Hooks) (r : Rules.Ruleset) (shot : Rules.Shot),
      activeIdxInv r →
      activeIdxInv (Rules.Ruleset.process_shot hooks r shot).1) ∧
    (∀ (hooks : Rules.Hooks) (r : Rules.Ruleset) (shot : Rules.Shot)
      (r' : Rules.Ruleset) (shot' : Rules.Shot), activeIdxInv r →
      Rules.Ruleset.process_and_advance hooks r shot = Except.ok (r', shot') →
      activeIdxInv r') := by
  have hadv : ∀ (hooks : Rules.Hooks) (r : Rules.Ruleset) (shot : Rules.Shot)
      (r' : Rules.Ruleset) (shot' : Rules.Shot), activeIdxInv r →
      Rules.Ruleset.advance hooks r shot = Except.ok (r', shot') →
      activeIdxInv r' := by
    intro hooks r shot r' shot' hinv h
    rcases advance_ok_shape hooks r shot r' shot' h with
      ⟨hp, ha, ht⟩ | ⟨hp, hlen, hmod⟩
    · exact ⟨by rw [ha, ht, hp]; exact hinv.1, by rw [ha, hp]; exact hinv.2⟩
    · exact ⟨hmod, by rw [hmod]; exact Nat.mod_lt _ (Nat.pos_of_ne_zero hlen)⟩
  have hps : ∀ (hooks : Rules.Hooks) (r : Rules.Ruleset) (shot : Rules.Shot),
      activeIdxInv r →
      activeIdxInv (Rules.Ruleset.process_shot hooks r shot).1 := by
    intro hooks r shot hinv
    exact hinv
  refine ⟨init_activeIdxInv, hadv, hps, ?_⟩
  intro hooks r shot r' shot' hinv h
  exact hadv hooks _ _ r' shot' (hps hooks r shot hinv) h

/-- The default two-player roster state produced by `Ruleset.__init__`. -/
def rulesetFresh : Rules.Ruleset :=
  { score := []
    shot_number := 0
    turn_number := 0
    shot_constraints := scNoCueable
    shot_info := none
    players := [⟨"Player 1"⟩, ⟨"Player 2"⟩]
    active_idx := 0
    log := Rules.Log.init }

/-- Witness for the amended C4: the default construction satisfies the
invariant, and one completed `advance` from a concrete in-progress state
preserves it. -/
theorem C4_active_idx_amended_witness : activeIdxInv rulesetFresh :=
  C4_active_idx_amended.1 hooksTrivial none rulesetFresh rfl (by simp [rulesetFresh])

/-- Counterexample to C4 as stated: constructing a `Ruleset` with the empty
player-name list succeeds (the uniqueness assert passes vacuously) and yields
`active_idx = 0` with a roster of size `0`, so the active index does not lie
in `[0, player count)`. -/
theorem C4_counterexample :
    Rules.Ruleset.init hooksTrivial (some []) =
      Except.ok
        { score := []
          shot_number := 0
          turn_number := 0
          shot_constraints := scNoCueable
          shot_info := none
          players := []
          active_idx := 0
          log := Rules.Log.init } ∧
    ¬ (0 : Nat) < ([] : List Rules.Player).length := by
  exact ⟨rfl, by simp⟩

end ClaimC4

section ClaimC1

/-- `minTransLoop` processes an appended list in two stages. -/
lemma minTransLoop_append (l₁ l₂ : List Evo.Ball) (e : Evo.EvEvent) :
    Evo.minTransLoop (l₁ ++ l₂) e = Evo.minTransLoop l₂ (Evo.minTransLoop l₁ e) := by
  induction l₁ generalizing e with
  | nil => rfl
  | cons b bs ih =>
    simp only [List.cons_append, Evo.minTransLoop]
    exact ih _

/-- The transition loop returns its accumulator or the precomputed transition
event of one of the balls. -/
lemma minTransLoop_mem (l : List Evo.Ball) (e : Evo.EvEvent) :
    Evo.minTransLoop l e = e ∨
    ∃ b ∈ l, Evo.minTransLoop l e = b.next_transition_event := by
  induction l generalizing e with
  | nil => exact Or.inl rfl
  | cons b bs ih =>
    simp only [Evo.minTransLoop]
    by_cases hb : b.next_transition_event.time ≤ e.time
    · rw [if_pos hb]
      rcases ih b.next_transition_event with h | ⟨c, hc, h⟩
      · exact Or.inr ⟨b, List.mem_cons_self b bs, h⟩
      · exact Or.inr ⟨c, List.mem_cons_of_mem b hc, h⟩
    · rw [if_neg hb]
      rcases ih e with h | ⟨c, hc, h⟩
      · exact Or.inl h
      · exact Or.inr ⟨c, List.mem_cons_of_mem b hc, h⟩

/-- The transition loop never increases the running candidate's time. -/
lemma minTransLoop_time_le (l : List Evo.Ball) (e : Evo.EvEvent) :
    (Evo.minTransLoop l e).time ≤ e.time := by
  induction l generalizing e with
  | nil => exact le_refl _
  | cons b bs ih =>
    simp only [Evo.minTransLoop]
    by_cases hb : b.next_transition_event.time ≤ e.time
    · rw [if_pos hb]
      exact le_trans (ih _) hb
    · rw [if_neg hb]
      exact ih e

/-- The transition loop's result is no later than every ball's precomputed
transition event. -/
lemma minTransLoop_le (l : List Evo.Ball) (e : Evo.EvEvent) :
    ∀ b ∈ l, (Evo.minTransLoop l e).time ≤ b.next_transition_event.time := by
  induction l generalizing e with
  | nil =>
    intro b hb
    cases hb
  | cons c cs ih =>
    intro b hb
    simp only [Evo.minTransLoop]
    rcases List.mem_cons.mp hb with rfl | hb'
    · by_cases hc : b.next_transition_event.time ≤ e.time
      · rw [if_pos hc]
        exact minTransLoop_time_le cs b.next_transition_event
      · rw [if_neg hc]
        exact le_trans (minTransLoop_time_le cs e) (le_of_lt (lt_of_not_le hc))
    · by_cases hc : c.next_transition_event.time ≤ e.time
      · rw [if_pos hc]
        exact ih _ b hb'
      · rw [if_neg hc]
        exact ih _ b hb'

/-- If no remaining ball's transition event is at or before the running
candidate, the candidate survives. -/
lemma minTransLoop_skip (l : List Evo.Ball) (e : Evo.EvEvent)
    (h : ∀ b ∈ l, ¬ b.next_transition_event.time ≤ e.time) :
    Evo.minTransLoop l e = e := by
  induction l with
  | nil => rfl
  | cons b bs ih =>
    simp only [Evo.minTransLoop]
    rw [if_neg (h b (List.mem_cons_self b bs))]
    exact ih (fun c hc => h c (List.mem_cons_of_mem b hc))

/-- The non-strict internal comparison makes the last ball attaining the
minimum transition time win. -/
lemma trans_tie_break (l₁ : List Evo.Ball) (b : Evo.Ball) (l₂ : List Evo.Ball)
    (h₁ : ∀ a ∈ l₁, b.next_transition_event.time ≤ a.next_transition_event.time)
    (h₂ : ∀ c ∈ l₂, b.next_transition_event.time < c.next_transition_event.time) :
    Evo.get_min_transition_event_time (l₁ ++ b :: l₂) = b.next_transition_event := by
  have hb : b.next_transition_event.time ≤
      (Evo.minTransLoop l₁ (Evo.NonEvent ⊤)).time := by
    rcases minTransLoop_mem l₁ (Evo.NonEvent ⊤) with h | ⟨a, ha, h⟩
    · rw [h]
      exact le_top
    · rw [h]
      exact h₁ a ha
  show Evo.minTransLoop (l₁ ++ b :: l₂) (Evo.NonEvent ⊤) = b.next_transition_event
  rw [minTransLoop_append]
  simp only [Evo.minTransLoop]
  rw [if_pos hb]
  exact minTransLoop_skip l₂ _ (fun c hc => not_le.mpr (h₂ c hc))

/-- The selection structure of `get_next_event`: given the three candidate
events and the two intermediate running events, characterizes the time, the
NONE sentinel condition and the winner under each ordering of the candidate
times. -/
lemma select_structure (T B C e1 e2 E : Evo.EvEvent)
    (hTtyp : T.typ = Evo.EvType.NONE → T = Evo.NonEvent ⊤)
    (hBtyp : B.typ = Evo.EvType.BALL_BALL)
    (hCtyp : C.typ = Evo.EvType.BALL_CUSHION)
    (he1 : e1 = if T.time < (Evo.NonEvent ⊤).time then T else Evo.NonEvent ⊤)
    (he2 : e2 = if B.time < e1.time then B else e1)
    (hE : E = if C.time < e2.time then C else e2) :
    (E.time = min T.time (min B.time C.time)) ∧
    (E.typ = Evo.EvType.NONE ↔ (T.time = ⊤ ∧ B.time = ⊤ ∧ C.time = ⊤)) ∧
    (E.typ = Evo.EvType.NONE → E = Evo.NonEvent ⊤) ∧
    (T.time ≠ ⊤ → T.time ≤ B.time → T.time ≤ C.time → E = T) ∧
    (B.time < T.time → B.time ≤ C.time → E = B) ∧
    (C.time < T.time → C.time < B.time → E = C) := by
  have e1time : e1.time = T.time := by
    by_cases h : T.time < (Evo.NonEvent ⊤).time
    · rw [he1, if_pos h]
    · rw [he1, if_neg h]
      have htop : T.time = ⊤ := top_le_iff.mp (not_lt.mp h)
      rw [htop]
      rfl
  have e2cases : e2 = B ∨ e2 = e1 := by
    by_cases h : B.time < e1.time
    · exact Or.inl (by rw [he2, if_pos h])
    · exact Or.inr (by rw [he2, if_neg h])
  have e2leT : e2.time ≤ T.time := by
    by_cases h : B.time < e1.time
    · rw [he2, if_pos h, ← e1time]
      exact le_of_lt h
    · rw [he2, if_neg h, e1time]
  have e2leB : e2.time ≤ B.time := by
    by_cases h : B.time < e1.time
    · rw [he2, if_pos h]
    · rw [he2, if_neg h]
      exact not_lt.mp h
  have e2attain : e2.time = T.time ∨ e2.time = B.time := by
    rcases e2cases with h | h
    · exact Or.inr (by rw [h])
    · exact Or.inl (by rw [h, e1time])
  have EleT : E.time ≤ T.time := by
    by_cases h : C.time < e2.time
    · rw [hE, if_pos h]
      exact le_trans (le_of_lt h) e2leT
    · rw [hE, if_neg h]
      exact e2leT
  have EleB : E.time ≤ B.time := by
    by_cases h : C.time < e2.time
    · rw [hE, if_pos h]
      exact le_trans (le_of_lt h) e2leB
    · rw [hE, if_neg h]
      exact e2leB
  have EleC : E.time ≤ C.time := by
    by_cases h : C.time < e2.time
    · rw [hE, if_pos h]
    · rw [hE, if_neg h]
      exact not_lt.mp h
  have Eattain : E.time = T.time ∨ E.time = B.time ∨ E.time = C.time := by
    by_cases h : C.time < e2.time
    · exact Or.inr (Or.inr (by rw [hE, if_pos h]))
    · rcases e2attain with h2 | h2
      · exact Or.inl (by rw [hE, if_neg h]; exact h2)
      · exact Or.inr (Or.inl (by rw [hE, if_neg h]; exact h2))
  have hnone_all : E.typ = Evo.EvType.NONE →
      (E = Evo.NonEvent ⊤ ∧ T.time = ⊤ ∧ B.time = ⊤ ∧ C.time = ⊤) := by
    intro hnone
    by_cases hc : C.time < e2.time
    · rw [hE, if_pos hc, hCtyp] at hnone
      exact absurd hnone (by decide)
    · rw [hE, if_neg hc] at hnone
      by_cases hb : B.time < e1.time
      · rw [he2, if_pos hb, hBtyp] at hnone
        exact absurd hnone (by decide)
      · rw [he2, if_neg hb] at hnone
        by_cases ht : T.time < (Evo.NonEvent ⊤).time
        · rw [he1, if_pos ht] at hnone
          have hTN := hTtyp hnone
          rw [hTN] at ht
          exact absurd ht (lt_irrefl _)
        · have htop : T.time = ⊤ := top_le_iff.mp (not_lt.mp ht)
          have he1N : e1 = Evo.NonEvent ⊤ := by rw [he1, if_neg ht]
          have he1t : e1.time = ⊤ := by rw [he1N]; rfl
          have hBtop : B.time = ⊤ := by
            have hh := not_lt.mp hb
            rw [he1t] at hh
            exact top_le_iff.mp hh
          have he2N : e2 = e1 := by rw [he2, if_neg hb]
          have hCtop : C.time = ⊤ := by
            have hh := not_lt.mp hc
            rw [he2N, he1t] at hh
            exact top_le_iff.mp hh
          refine ⟨?_, htop, hBtop, hCtop⟩
          rw [hE, if_neg hc, he2N, he1N]
  refine ⟨?_, ⟨fun h => (hnone_all h).2, ?_⟩, fun h => (hnone_all h).1, ?_, ?_, ?_⟩
  · refine le_antisymm (le_min EleT (le_min EleB EleC)) ?_
    rcases Eattain with h | h | h
    · rw [← h] at *
      exact min_le_left _ _
    · rw [← h]
      exact le_trans (min_le_right _ _) (min_le_left _ _)
    · rw [← h]
      exact le_trans (min_le_right _ _) (min_le_right _ _)
  · rintro ⟨htop, hBtop, hCtop⟩
    have he1N : e1 = Evo.NonEvent ⊤ := by
      rw [he1, if_neg]
      rw [htop]
      exact lt_irrefl _
    have he2N : e2 = e1 := by
      rw [he2, if_neg]
      rw [hBtop, he1N]
      exact lt_irrefl _
    have hEN : E = e2 := by
      rw [hE, if_neg]
      rw [hCtop, he2N, he1N]
      exact lt_irrefl _
    rw [hEN, he2N, he1N]
    rfl
  · intro hne hTB hTC
    have ht : T.time < (Evo.NonEvent ⊤).time := lt_top_iff_ne_top.mpr hne
    have he1T : e1 = T := by rw [he1, if_pos ht]
    have he2T : e2 = e1 := by
      rw [he2, if_neg]
      rw [he1T]
      exact not_lt.mpr hTB
    rw [hE, if_neg, he2T, he1T]
    rw [he2T, he1T]
    exact not_lt.mpr hTC
  · intro hBT hBC
    have hb : B.time < e1.time := by
      rw [e1time]
      exact hBT
    have he2B : e2 = B := by rw [he2, if_pos hb]
    rw [hE, if_neg, he2B]
    rw [he2B]
    exact not_lt.mpr hBC
  · intro hCT hCB
    have hc : C.time < e2.time := by
      rcases e2cases with h | h
      · rw [h]
        exact hCB
      · rw [h, e1time]
        exact hCT
    rw [hE, if_pos hc]

/-- The `BallBallCollision` wrapper always carries the ball-ball event type. -/
lemma BallBallCollision_typ (inv : Option (Evo.Ball × Evo.Ball)) (t : Evo.Time) :
    (Evo.BallBallCollision inv t).typ = Evo.EvType.BALL_BALL := by
  cases inv <;> rfl

/-- The `BallBallCollision` wrapper carries exactly the given time. -/
lemma BallBallCollision_time (inv : Option (Evo.Ball × Evo.Ball)) (t : Evo.Time) :
    (Evo.BallBallCollision inv t).time = t := by
  cases inv <;> rfl

/-- The `BallCushionCollision` wrapper always carries the cushion event
type. -/
lemma BallCushionCollision_typ (inv : Option (Evo.Ball × Evo.Rail)) (t : Evo.Time) :
    (Evo.BallCushionCollision inv t).typ = Evo.EvType.BALL_CUSHION := by
  cases inv <;> rfl

/-- Claim C1: `get_next_event` returns the candidate with the numerically
smallest time among the transition, ball-ball and ball-rail sources, comparing
across sources with strict `<` (so an earlier source wins exact cross-source
ties), returns the NONE sentinel with infinite time exactly when all three
candidates are infinite, and the transition source internally uses a
non-strict comparison so that among equal transition times the last ball in
iteration order wins. -/
theorem C1_get_next_event (bb : Evo.BBPhys) (br : Evo.BRPhys) (t : ℚ)
    (balls : List Evo.Ball) (rails : List Evo.Rail)
    (hagents : ∀ b ∈ balls, b.next_transition_event.typ ≠ Evo.EvType.NONE) :
    ((Evo.get_next_event bb br t balls rails).time =
      min (Evo.get_min_transition_event_time balls).time
        (min (Evo.get_min_ball_ball_event_time bb t balls).time
          (Evo.get_min_ball_rail_event_time br t balls rails).time)) ∧
    ((Evo.get_next_event bb br t balls rails).typ = Evo.EvType.NONE ↔
      ((Evo.get_min_transition_event_time balls).time = ⊤ ∧
        (Evo.get_min_ball_ball_event_time bb t balls).time = ⊤ ∧
        (Evo.get_min_ball_rail_event_time br t balls rails).time = ⊤)) ∧
    ((Evo.get_next_event bb br t balls rails).typ = Evo.EvType.NONE →
      Evo.get_next_event bb br t balls rails = Evo.NonEvent ⊤) ∧
    ((Evo.get_min_transition_event_time balls).time ≠ ⊤ →
      (Evo.get_min_transition_event_time balls).time ≤
        (Evo.get_min_ball_ball_event_time bb t balls).time →
      (Evo.get_min_transition_event_time balls).time ≤
        (Evo.get_min_ball_rail_event_time br t balls rails).time →
      Evo.get_next_event bb br t balls rails =
        Evo.get_min_transition_event_time balls) ∧
    ((Evo.get_min_ball_ball_event_time bb t balls).time <
        (Evo.get_min_transition_event_time balls).time →
      (Evo.get_min_ball_ball_event_time bb t balls).time ≤
        (Evo.get_min_ball_rail_event_time br t balls rails).time →
      Evo.get_next_event bb br t balls rails =
        Evo.get_min_ball_ball_event_time bb t balls) ∧
    ((Evo.get_min_ball_rail_event_time br t balls rails).time <
        (Evo.get_min_transition_event_time balls).time →
      (Evo.get_min_ball_rail_event_time br t balls rails).time <
        (Evo.get_min_ball_ball_event_time bb t balls).time →
      Evo.get_next_event bb br t balls rails =
        Evo.get_min_ball_rail_event_time br t balls rails) ∧
    (∀ b ∈ balls, (Evo.get_min_transition_event_time balls).time ≤
      b.next_transition_event.time) ∧
    (∀ (l₁ : List Evo.Ball) (b : Evo.Ball) (l₂ : List Evo.Ball),
      balls = l₁ ++ b :: l₂ →
      (∀ a ∈ l₁, b.next_transition_event.time ≤ a.next_transition_event.time) →
      (∀ c ∈ l₂, b.next_transition_event.time < c.next_transition_event.time) →
      Evo.get_min_transition_event_time balls = b.next_transition_event) := by
  have hTtyp : (Evo.get_min_transition_event_time balls).typ = Evo.EvType.NONE →
      Evo.get_min_transition_event_time balls = Evo.NonEvent ⊤ := by
    intro htyp
    rcases minTransLoop_mem balls (Evo.NonEvent ⊤) with h | ⟨b, hb, h⟩
    · exact h
    · rw [show Evo.get_min_transition_event_time balls = b.next_transition_event
        from h] at htyp
      exact absurd htyp (hagents b hb)
  have hBtyp : (Evo.get_min_ball_ball_event_time bb t balls).typ =
      Evo.EvType.BALL_BALL := BallBallCollision_typ _ _
  have hCtyp : (Evo.get_min_ball_rail_event_time br t balls rails).typ =
      Evo.EvType.BALL_CUSHION := BallCushionCollision_typ _ _
  obtain ⟨h1, h2, h3, h4, h5, h6⟩ :=
    select_structure (Evo.get_min_transition_event_time balls)
      (Evo.get_min_ball_ball_event_time bb t balls)
      (Evo.get_min_ball_rail_event_time br t balls rails)
      (if (Evo.get_min_transition_event_time balls).time <
          (Evo.NonEvent ⊤).time
        then Evo.get_min_transition_event_time balls else Evo.NonEvent ⊤)
      (if (Evo.get_min_ball_ball_event_time bb t balls).time <
          (if (Evo.get_min_transition_event_time balls).time <
              (Evo.NonEvent ⊤).time
            then Evo.get_min_transition_event_time balls
            else Evo.NonEvent ⊤).time
        then Evo.get_min_ball_ball_event_time bb t balls
        else
          (if (Evo.get_min_transition_event_time balls).time <
              (Evo.NonEvent ⊤).time
            then Evo.get_min_transition_event_time balls
            else Evo.NonEvent ⊤))
      (Evo.get_next_event bb br t balls rails)
      hTtyp hBtyp hCtyp rfl rfl rfl
  refine ⟨h1, h2, h3, h4, h5, h6, ?_, ?_⟩
  · intro b hb
    exact minTransLoop_le balls (Evo.NonEvent ⊤) b hb
  · intro l₁ b l₂ hsplit ha hc
    rw [hsplit]
    exact trans_tie_break l₁ b l₂ ha hc

/-- A concrete rolling ball whose next transition is at time 3. -/
def tball : Evo.Ball :=
  { id := 1
    s := Evo.BState.rolling
    rvw := ((0, 0, 0), (1, 0, 0), (0, 0, 0))
    R := 1
    m := 1
    u_s := 1
    u_sp := 1
    u_r := 1
    g := 1
    next_transition_event :=
      ⟨Evo.EvType.TRANSITION, [some 1], ((3 : ℚ) : Evo.Time)⟩ }

/-- A ball-ball boundary routine that never reports a collision. -/
def bbTop : Evo.BBPhys := fun _ _ _ _ _ _ _ _ _ _ _ => ⊤

/-- A ball-rail boundary routine that never reports a collision. -/
def brTop : Evo.BRPhys := fun _ _ _ _ _ _ _ _ _ => ⊤

/-- Witness for C1: with one rolling ball, no rails and collision routines
returning no collision, the next event is the ball's transition event. -/
theorem C1_get_next_event_witness :
    Evo.get_next_event bbTop brTop 0 [tball] [] = tball.next_transition_event := by
  have hagents : ∀ b ∈ [tball], b.next_transition_event.typ ≠ Evo.EvType.NONE := by
    decide
  have hTval : Evo.get_min_transition_event_time [tball] =
      tball.next_transition_event :=
    (C1_get_next_event bbTop brTop 0 [tball] [] hagents).2.2.2.2.2.2.2
      [] tball [] rfl (by simp) (by simp)
  have hBtime : (Evo.get_min_ball_ball_event_time bbTop 0 [tball]).time = ⊤ := by
    rw [show (Evo.get_min_ball_ball_event_time bbTop 0 [tball]).time =
      ((0 : ℚ) : Evo.Time) + ⊤ from rfl]
    exact WithTop.add_top _
  have hCtime : (Evo.get_min_ball_rail_event_time brTop 0 [tball] []).time = ⊤ := by
    rw [show (Evo.get_min_ball_rail_event_time brTop 0 [tball] []).time =
      ((0 : ℚ) : Evo.Time) + ⊤ from rfl]
    exact WithTop.add_top _
  have hres := (C1_get_next_event bbTop brTop 0 [tball] [] hagents).2.2.2.1
    (by rw [hTval]; exact WithTop.coe_ne_top)
    (by rw [hTval, hBtime]; exact le_top)
    (by rw [hTval, hCtime]; exact le_top)
  rw [hres, hTval]

end ClaimC1

section ClaimC2

/-- Lower bound: the ball-ball loop result is at most the accumulator and at
most every considered pair's collision time. -/
lemma minBB_le (phys : Evo.BBPhys) (l : List (Evo.Ball × Evo.Ball))
    (d : Evo.Time) (i : Option (Evo.Ball × Evo.Ball)) :
    (Evo.minBBLoop phys l d i).1 ≤ d ∧
    ∀ p ∈ l, ¬ Evo.bothStationary p →
      (Evo.minBBLoop phys l d i).1 ≤ Evo.dtauBB phys p.1 p.2 := by
  induction l generalizing d i with
  | nil =>
    refine ⟨le_refl _, ?_⟩
    intro p hp
    cases hp
  | cons p ps ih =>
    by_cases hs : Evo.bothStationary p
    · simp only [Evo.minBBLoop, if_pos hs]
      refine ⟨(ih d i).1, ?_⟩
      intro q hq hnq
      rcases List.mem_cons.mp hq with rfl | hq'
      · exact absurd hs hnq
      · exact (ih d i).2 q hq' hnq
    · by_cases hlt : Evo.dtauBB phys p.1 p.2 < d
      · simp only [Evo.minBBLoop, if_neg hs, if_pos hlt]
        refine ⟨le_trans (ih _ _).1 (le_of_lt hlt), ?_⟩
        intro q hq hnq
        rcases List.mem_cons.mp hq with rfl | hq'
        · exact (ih _ _).1
        · exact (ih _ _).2 q hq' hnq
      · simp only [Evo.minBBLoop, if_neg hs, if_neg hlt]
        refine ⟨(ih d i).1, ?_⟩
        intro q hq hnq
        rcases List.mem_cons.mp hq with rfl | hq'
        · exact le_trans (ih d i).1 (not_lt.mp hlt)
        · exact (ih d i).2 q hq' hnq

/-- The ball-ball loop returns the accumulator or the collision time (with
its pair) of one considered pair. -/
lemma minBB_cases (phys : Evo.BBPhys) (l : List (Evo.Ball × Evo.Ball))
    (d : Evo.Time) (i : Option (Evo.Ball × Evo.Ball)) :
    Evo.minBBLoop phys l d i = (d, i) ∨
    ∃ p ∈ l, ¬ Evo.bothStationary p ∧
      Evo.minBBLoop phys l d i = (Evo.dtauBB phys p.1 p.2, some p) := by
  induction l generalizing d i with
  | nil => exact Or.inl rfl
  | cons p ps ih =>
    by_cases hs : Evo.bothStationary p
    · simp only [Evo.minBBLoop, if_pos hs]
      rcases ih d i with h | ⟨q, hq, hnq, h⟩
      · exact Or.inl h
      · exact Or.inr ⟨q, List.mem_cons_of_mem p hq, hnq, h⟩
    · by_cases hlt : Evo.dtauBB phys p.1 p.2 < d
      · simp only [Evo.minBBLoop, if_neg hs, if_pos hlt]
        rcases ih (Evo.dtauBB phys p.1 p.2) (some p) with h | ⟨q, hq, hnq, h⟩
        · exact Or.inr ⟨p, List.mem_cons_self p ps, hs, h⟩
        · exact Or.inr ⟨q, List.mem_cons_of_mem p hq, hnq, h⟩
      · simp only [Evo.minBBLoop, if_neg hs, if_neg hlt]
        rcases ih d i with h | ⟨q, hq, hnq, h⟩
        · exact Or.inl h
        · exact Or.inr ⟨q, List.mem_cons_of_mem p hq, hnq, h⟩

/-- The ball-ball loop processes an appended list in two stages. -/
lemma minBB_append (phys : Evo.BBPhys) (l₁ l₂ : List (Evo.Ball × Evo.Ball))
    (d : Evo.Time) (i : Option (Evo.Ball × Evo.Ball)) :
    Evo.minBBLoop phys (l₁ ++ l₂) d i =
      Evo.minBBLoop phys l₂ (Evo.minBBLoop phys l₁ d i).1
        (Evo.minBBLoop phys l₁ d i).2 := by
  induction l₁ generalizing d i with
  | nil => rfl
  | cons p ps ih =>
    simp only [List.cons_append, Evo.minBBLoop]
    split_ifs <;> exact ih _ _

/-- If no remaining considered pair beats the accumulator strictly, the
accumulator survives (first-found wins ties). -/
lemma minBB_noupdate (phys : Evo.BBPhys) (l : List (Evo.Ball × Evo.Ball))
    (d : Evo.Time) (i : Option (Evo.Ball × Evo.Ball))
    (h : ∀ p ∈ l, ¬ Evo.bothStationary p → ¬ Evo.dtauBB phys p.1 p.2 < d) :
    Evo.minBBLoop phys l d i = (d, i) := by
  induction l with
  | nil => rfl
  | cons p ps ih =>
    by_cases hs : Evo.bothStationary p
    · simp only [Evo.minBBLoop, if_pos hs]
      exact ih (fun q hq => h q (List.mem_cons_of_mem p hq))
    · simp only [Evo.minBBLoop, if_neg hs,
        if_neg (h p (List.mem_cons_self p ps) hs)]
      exact ih (fun q hq => h q (List.mem_cons_of_mem p hq))

/-- Every two balls appearing in order in the ball list form a visited
pair. -/
lemma pair_mem_allPairs {b1 b2 : Evo.Ball} :
    ∀ {l : List Evo.Ball}, [b1, b2].Sublist l → (b1, b2) ∈ Evo.allPairs l := by
  intro l h
  induction l with
  | nil => simp at h
  | cons c cs ih =>
    cases h with
    | cons _ h' =>
      exact List.mem_append_right _ (ih h')
    | cons₂ _ h' =>
      exact List.mem_append_left _
        (List.mem_map_of_mem _ (List.singleton_sublist.mp h'))

/-- Claim C2: `get_min_ball_ball_event_time` considers every unordered pair of
distinct balls, skips entirely any pair in which both balls are stationary,
passes each ball's sliding friction coefficient if sliding and its rolling
coefficient otherwise (via `dtauBB`), keeps the minimum collision time under a
strict comparison so the first-found pair wins ties, and wraps the result as a
BALL_BALL event at absolute time `current_time + Δ`. -/
theorem C2_get_min_ball_ball (bb : Evo.BBPhys) (t : ℚ) (balls : List Evo.Ball) :
    (∀ b1 b2 : Evo.Ball, [b1, b2].Sublist balls →
      (b1, b2) ∈ Evo.allPairs balls) ∧
    (∀ (P₁ : List (Evo.Ball × Evo.Ball)) (p : Evo.Ball × Evo.Ball)
      (P₂ : List (Evo.Ball × Evo.Ball)),
      Evo.allPairs balls = P₁ ++ p :: P₂ → Evo.bothStationary p →
      Evo.minBBLoop bb (Evo.allPairs balls) ⊤ none =
        Evo.minBBLoop bb (P₁ ++ P₂) ⊤ none) ∧
    (∀ p ∈ Evo.allPairs balls, ¬ Evo.bothStationary p →
      (Evo.minBBLoop bb (Evo.allPairs balls) ⊤ none).1 ≤
        Evo.dtauBB bb p.1 p.2) ∧
    (Evo.minBBLoop bb (Evo.allPairs balls) ⊤ none = (⊤, none) ∨
      ∃ p ∈ Evo.allPairs balls, ¬ Evo.bothStationary p ∧
        Evo.minBBLoop bb (Evo.allPairs balls) ⊤ none =
          (Evo.dtauBB bb p.1 p.2, some p)) ∧
    (∀ (P₁ : List (Evo.Ball × Evo.Ball)) (p : Evo.Ball × Evo.Ball)
      (P₂ : List (Evo.Ball × Evo.Ball)),
      Evo.allPairs balls = P₁ ++ p :: P₂ → ¬ Evo.bothStationary p →
      Evo.dtauBB bb p.1 p.2 ≠ ⊤ →
      (∀ q ∈ P₁, ¬ Evo.bothStationary q →
        Evo.dtauBB bb p.1 p.2 < Evo.dtauBB bb q.1 q.2) →
      (∀ q ∈ P₂, ¬ Evo.bothStationary q →
        Evo.dtauBB bb p.1 p.2 ≤ Evo.dtauBB bb q.1 q.2) →
      Evo.get_min_ball_ball_event_time bb t balls =
        ⟨Evo.EvType.BALL_BALL, [some p.1.id, some p.2.id],
          (t : Evo.Time) + Evo.dtauBB bb p.1 p.2⟩) ∧
    ((Evo.get_min_ball_ball_event_time bb t balls).typ =
      Evo.EvType.BALL_BALL) ∧
    ((Evo.get_min_ball_ball_event_time bb t balls).time =
      (t : Evo.Time) + (Evo.minBBLoop bb (Evo.allPairs balls) ⊤ none).1) := by
  refine ⟨fun b1 b2 h => pair_mem_allPairs h, ?_, ?_, minBB_cases bb _ ⊤ none,
    ?_, BallBallCollision_typ _ _, BallBallCollision_time _ _⟩
  · intro P₁ p P₂ hsplit hs
    rw [hsplit, minBB_append, minBB_append]
    simp only [Evo.minBBLoop, if_pos hs]
  · intro p hp hnp
    exact (minBB_le bb _ ⊤ none).2 p hp hnp
  · intro P₁ p P₂ hsplit hnp hne h₁ h₂
    have hr₁ : Evo.dtauBB bb p.1 p.2 < (Evo.minBBLoop bb P₁ ⊤ none).1 := by
      rcases minBB_cases bb P₁ ⊤ none with h | ⟨q, hq, hnq, h⟩
      · rw [h]
        exact lt_top_iff_ne_top.mpr hne
      · rw [h]
        exact h₁ q hq hnq
    have hloop : Evo.minBBLoop bb (Evo.allPairs balls) ⊤ none =
        (Evo.dtauBB bb p.1 p.2, some p) := by
      rw [hsplit, minBB_append]
      simp only [Evo.minBBLoop, if_neg hnp, if_pos hr₁]
      exact minBB_noupdate bb P₂ _ _
        (fun q hq hnq => not_lt.mpr (h₂ q hq hnq))
    show Evo.BallBallCollision (Evo.minBBLoop bb (Evo.allPairs balls) ⊤ none).2
        ((t : Evo.Time) + (Evo.minBBLoop bb (Evo.allPairs balls) ⊤ none).1) = _
    rw [hloop]
    rfl

/-- A concrete sliding ball. -/
def cball1 : Evo.Ball :=
  { id := 1
    s := Evo.BState.sliding
    rvw := ((0, 0, 0), (2, 0, 0), (0, 0, 0))
    R := 1
    m := 1
    u_s := 1
    u_sp := 1
    u_r := 1
    g := 1
    next_transition_event :=
      ⟨Evo.EvType.TRANSITION, [some 1], ((1 : ℚ) : Evo.Time)⟩ }

/-- A concrete stationary ball. -/
def cball2 : Evo.Ball :=
  { id := 2
    s := Evo.BState.stationary
    rvw := ((1, 0, 0), (0, 0, 0), (0, 0, 0))
    R := 1
    m := 1
    u_s := 1
    u_sp := 1
    u_r := 1
    g := 1
    next_transition_event :=
      ⟨Evo.EvType.TRANSITION, [some 2], ⊤⟩ }

/-- A ball-ball boundary routine that always reports a collision in 5
seconds. -/
def bbFive : Evo.BBPhys := fun _ _ _ _ _ _ _ _ _ _ _ => ((5 : ℚ) : Evo.Time)

/-- Witness for C2: with one sliding and one stationary ball the single pair
wins and is wrapped as a BALL_BALL event at `current_time + Δ`. -/
theorem C2_get_min_ball_ball_witness :
    Evo.get_min_ball_ball_event_time bbFive 0 [cball1, cball2] =
      ⟨Evo.EvType.BALL_BALL, [some cball1.id, some cball2.id],
        ((0 : ℚ) : Evo.Time) + Evo.dtauBB bbFive cball1 cball2⟩ := by
  refine (C2_get_min_ball_ball bbFive 0 [cball1, cball2]).2.2.2.2.1
    [] (cball1, cball2) [] rfl (by decide) ?_ ?_ ?_
  · show ((5 : ℚ) : Evo.Time) ≠ ⊤
    exact WithTop.coe_ne_top
  · intro q hq
    exact absurd hq (List.not_mem_nil q)
  · intro q hq
    exact absurd hq (List.not_mem_nil q)

end ClaimC2
